import Mathlib

/-!
Shallow embedding of the DiscoX evaluation pipeline
(`eval/eval_res.py`, `run_tasks.py`, `runs/run.py`, `dataset/data.py`)
and proofs of the specification claims about it.

Judge outputs are JSON arrays of objects; an object is embedded as an
association list of string keys and string values (`Item`), and a
judgment list as `List Item`.  Python `"k" in item` is membership of the
key, `item["k"]` is lookup.  Scores are `Int` because intermediate sums
go negative before the final clamp.
-/

/-- One issue record from a judge: a JSON object, embedded as an
association list from keys to string values. -/
def Item : Type := List (String × String)

instance : DecidableEq Item := by
  unfold Item
  infer_instance

/-- `item["k"]` when `"k" in item`, else `none`. -/
def itemGet (it : Item) (k : String) : Option String :=
  List.lookup k it

/-- The `ACCURACY_MAPPING` dict of `calculate_score`. -/
def ACCURACY_MAPPING : List (String × Int) :=
  [("整体无问题", 0),
   ("普通", -5), ("Major", -5),
   ("严重", -10), ("Critical", -10),
   ("非常严重", -50), ("Extremely Critical", -50)]

/-- The `CORRECTNESS_MAPPING` dict of `calculate_score`. -/
def CORRECTNESS_MAPPING : List (String × Int) :=
  [("错误", -5), ("正确", 0)]

/-- The `FLUENCY_MAPPING` dict of `calculate_score`. -/
def FLUENCY_MAPPING : List (String × Int) :=
  [("无问题", 0), ("有问题", -2), ("整体无问题", 0)]

/-- The `APPROPIATE_MAPPING` dict of `calculate_score`. -/
def APPROPIATE_MAPPING : List (String × Int) :=
  [("无问题", 0), ("有问题", -5), ("整体无问题", 0)]

/-- Score delta of one accuracy issue: the mapped penalty when the
severity key is present and recognized, else `-5`
(the `acc_score -= 5` default branch). -/
def accuracyDelta (it : Item) : Int :=
  match itemGet it "问题严重程度" with
  | some v =>
    match List.lookup v ACCURACY_MAPPING with
    | some p => p
    | none => -5
  | none => -5

/-- Score delta of one checkpoint issue: the mapped penalty when the
result key is present and recognized, else `0` (the `pass` branch). -/
def correctnessDelta (it : Item) : Int :=
  match itemGet it "判断结果" with
  | some v =>
    match List.lookup v CORRECTNESS_MAPPING with
    | some p => p
    | none => 0
  | none => 0

/-- Score delta of one fluency issue: mapped penalty when recognized,
else `0` (the `flu_score -= 0` default branch). -/
def fluencyDelta (it : Item) : Int :=
  match itemGet it "问题严重程度" with
  | some v =>
    match List.lookup v FLUENCY_MAPPING with
    | some p => p
    | none => 0
  | none => 0

/-- Score delta of one appropriateness issue: mapped penalty when
recognized, else `0` (the `appropiate_score += 0` default branch). -/
def appropiateDelta (it : Item) : Int :=
  match itemGet it "问题严重程度" with
  | some v =>
    match List.lookup v APPROPIATE_MAPPING with
    | some p => p
    | none => 0
  | none => 0

/-- `calculate_score` of `eval/eval_res.py`: starts accuracy at 60,
folds the accuracy-issue deltas then the checkpoint deltas, clamps to
`≥ 0`; fluency and appropriateness start at 20, fold their deltas,
clamp to `≥ 0`; returns the three-score tuple. -/
def calculate_score (acc ckpt flu appropiate : List Item) :
    Int × Int × Int :=
  let acc_score := acc.foldl (fun s it => s + accuracyDelta it) 60
  let acc_score := ckpt.foldl (fun s it => s + correctnessDelta it) acc_score
  let acc_score := max acc_score 0
  let flu_score := max (flu.foldl (fun s it => s + fluencyDelta it) 20) 0
  let appropiate_score :=
    max (appropiate.foldl (fun s it => s + appropiateDelta it) 20) 0
  (acc_score, flu_score, appropiate_score)

example : calculate_score [] [] [] [] = (60, 20, 20) := by decide

example :
    calculate_score [[("问题严重程度", "非常严重")]] [] [] [] =
      (10, 20, 20) := by decide

/-! ### `extract_json_string`

`re.search(r"```(?:json)?\s*([\s\S]*?)\s*```", text)` then
`match.group(1).strip()`, or the raw text when there is no match.
Texts are embedded as `List Char`.  The regex semantics specialized to
this pattern: the overall match opens at the first backtick triple that
has another backtick triple after it; an optional literal `json` is
consumed right after the opening ticks; the lazy group together with the
trailing `\s*` spans up to the next backtick triple, and the final
`.strip()` makes the result the whitespace-trimmed text between the two
triples. -/

/-- Python `\s` for the ASCII whitespace characters involved. -/
def isPySpace (c : Char) : Bool :=
  c = ' ' || c = '\t' || c = '\n' || c = '\r' || c = '\x0b' || c = '\x0c'

/-- `str.strip()`: drop leading and trailing whitespace. -/
def pyStrip (l : List Char) : List Char :=
  ((l.dropWhile isPySpace).reverse.dropWhile isPySpace).reverse

/-- The backtick character. -/
def btick : Char := Char.ofNat 96

/-- The three-backtick fence delimiter. -/
def ticks : List Char := [btick, btick, btick]

/-- Does the text start with a backtick triple? -/
def startsTicks (l : List Char) : Bool := l.take 3 == ticks

/-- Split at the first backtick triple: `some (before, after)` with
`text = before ++ ticks ++ after` and no triple starting inside
`before`, else `none`. -/
def splitAtFence : List Char → Option (List Char × List Char)
  | [] => none
  | c :: rest =>
    if startsTicks (c :: rest) then some ([], rest.drop 2)
    else
      match splitAtFence rest with
      | some (b, a) => some (c :: b, a)
      | none => none

/-- Does the text start with the literal `json`? -/
def startsJsonWord (l : List Char) : Bool := l.take 4 == ['j', 's', 'o', 'n']

/-- The `(?:json)?` option right after the opening ticks. -/
def skipJson (l : List Char) : List Char :=
  if startsJsonWord l then l.drop 4 else l

/-- Whether a backtick triple occurs anywhere in the text. -/
def hasTicks : List Char → Bool
  | [] => false
  | c :: rest => startsTicks (c :: rest) || hasTicks rest

/-- `extract_json_string` on character lists: group(1).strip() of the
fence match when present, the whole text otherwise.  The regex opens at
the first backtick triple, optionally consumes a literal `json`, and
the lazy group together with the trailing `\s*` and the final
`.strip()` yield the trimmed text up to the next backtick triple; when
either triple is missing the regex fails and the raw text is
returned. -/
def extractJsonChars (text : List Char) : List Char :=
  match splitAtFence text with
  | none => text
  | some (_, afterOpen) =>
    match splitAtFence (skipJson afterOpen) with
    | some (inner, _) => pyStrip inner
    | none => text

/-- `extract_json_string` of `eval/eval_res.py`. -/
def extract_json_string (text : String) : String :=
  ⟨extractJsonChars text.data⟩

example : extract_json_string "```json\n[1, 2]\n```" = "[1, 2]" := by decide

example : extract_json_string "no fence here" = "no fence here" := by decide

example : extract_json_string "x ``` [1] ``` y" = "[1]" := by decide

/-! ### `safe_json_call`

The decorator loops `attempt` over `range(1, retries+1)`; each attempt
calls the wrapped function and `json.loads` the result, returning the
parse on success; any exception (the wrapped call raising, returning a
non-string, or unparsable output) is caught and the next attempt runs;
after exhaustion it returns `[]`.  An attempt is embedded as
`attemptRes : Nat → Option String` (the string handed to `json.loads`,
`none` when the call failed) together with `parse : String → Option
(List Item)` (`json.loads` into a judgment list, `none` on a parse
error). -/

/-- The retry loop of `safe_json_call`: remaining attempts, current
attempt index. -/
def retryLoop (attemptRes : Nat → Option String)
    (parse : String → Option (List Item)) : Nat → Nat → List Item
  | 0, _ => []
  | k + 1, i =>
    match attemptRes i with
    | some r =>
      match parse r with
      | some v => v
      | none => retryLoop attemptRes parse k (i + 1)
    | none => retryLoop attemptRes parse k (i + 1)

/-- `safe_json_call` of `eval/eval_res.py` with the default
`retries=3`: attempts run at indices `1, …, retries`; the first
parsable result is returned, else `[]`. -/
def safe_json_call (attemptRes : Nat → Option String)
    (parse : String → Option (List Item)) (retries : Nat := 3) :
    List Item :=
  retryLoop attemptRes parse retries 1

/-! ### The `metrics` pipeline

`metrics` first issues the gate (instruction-following) call, matches
`re.search(r"是否存在问题：\s*([^\s])", instruct_res)` and returns
`(0,0,0), 0` with only the gate entry when the captured token is `是`;
otherwise it runs the four dimension judges, the single-attempt
self-critique, the four final judges and `calculate_score`.

The model invoker (`litellm_generate`) is embedded as an oracle of
per-stage responses, `none` meaning the invoker returned no content
(its `except` branch returns `None`).  `eval_result_by_llm` applied to
`None` raises a `TypeError` inside `re.search`; this is embedded as
`Except.error`.  To make "which judges were invoked" provable, the
pipeline also returns the list of stages it invoked. -/

/-- Drop the gate marker `是否存在问题：` when the text starts with it. -/
def dropGateMarker : List Char → Option (List Char)
  | '是' :: '否' :: '存' :: '在' :: '问' :: '题' :: '：' :: rest => some rest
  | _ => none

/-- `re.search(r"是否存在问题：\s*([^\s])", text)`: the captured
character of the leftmost occurrence of the marker that is followed,
after whitespace, by a non-whitespace character. -/
def gateProblem : List Char → Option Char
  | [] => none
  | c :: rest =>
    match dropGateMarker (c :: rest) with
    | some after =>
      match after.dropWhile isPySpace with
      | d :: _ => some d
      | [] => gateProblem rest
    | none => gateProblem rest

/-- `eval_result_by_llm`: `none` content makes
`extract_json_string(None)` raise (embedded as `Except.error`);
otherwise the extracted string is returned. -/
def eval_result_by_llm (resp : Option String) : Except Unit String :=
  match resp with
  | none => Except.error ()
  | some s => Except.ok (extract_json_string s)

/-- A `@safe_json_call` dimension/final judge (`judge_accuracy`,
`judge_checkpoint`, `judge_fluency`, `judge_appropiate`,
`final_judge`): the inner function catches every exception and returns
`None`, so an attempt with no invoker content fails at `json.loads` and
the wrapper retries; a successful attempt parses the extracted text. -/
def judgeDim (attempts : Nat → Option String)
    (parse : String → Option (List Item)) : List Item :=
  safe_json_call (fun i => (attempts i).map extract_json_string) parse

/-- `self_critique_judge`: a single unguarded `eval_result_by_llm`
call, so missing invoker content propagates as an exception. -/
def self_critique_judge (resp : Option String) : Except Unit String :=
  eval_result_by_llm resp

/-- The judge stages `metrics` can invoke, in source order. -/
inductive Stage
  | gate | accJudge | ckptJudge | fluJudge | appJudge
  | critique | accFinalJ | appFinalJ | ckptFinalJ | fluFinalJ
  deriving DecidableEq, Repr

/-- A value of the `detailed_judgement` dict. -/
inductive DV
  | text (s : String)
  | items (l : List Item)
  | nested (l : List (String × List Item))
  deriving DecidableEq

/-- Per-task responses of the judge model: one response per stage
(`none` = invoker failure), per-attempt streams for the retried
judges, and `json.loads` into a judgment list. -/
structure Oracle where
  instructRes : Option String
  accAttempts : Nat → Option String
  ckptAttempts : Nat → Option String
  fluAttempts : Nat → Option String
  appAttempts : Nat → Option String
  critiqueRes : Option String
  accFinalAttempts : Nat → Option String
  appFinalAttempts : Nat → Option String
  ckptFinalAttempts : Nat → Option String
  fluFinalAttempts : Nat → Option String
  parse : String → Option (List Item)

/-- The post-gate part of `metrics`: four dimension judges, the
self-critique, four final judges, aggregation, and the assembled
`detailed_judgement`. -/
def metricsFull (o : Oracle) (instruct_res : String) :
    Except Unit ((Int × Int × Int) × Int × List (String × DV) × List Stage) :=
  let acc_res := judgeDim o.accAttempts o.parse
  let ckpt_res := judgeDim o.ckptAttempts o.parse
  let flu_res := judgeDim o.fluAttempts o.parse
  let appropiate_res := judgeDim o.appAttempts o.parse
  match self_critique_judge o.critiqueRes with
  | Except.error e => Except.error e
  | Except.ok adjustment_res =>
    let acc_finalres := judgeDim o.accFinalAttempts o.parse
    let appropiate_finalres := judgeDim o.appFinalAttempts o.parse
    let ckpt_finalres := judgeDim o.ckptFinalAttempts o.parse
    let flu_finalres := judgeDim o.fluFinalAttempts o.parse
    let scores :=
      calculate_score acc_finalres ckpt_finalres flu_finalres appropiate_finalres
    let detailed : List (String × DV) :=
      [("instruction_following", DV.text instruct_res),
       ("initial_judgement",
         DV.nested [("accuracy", acc_res), ("checkpoints", ckpt_res),
                    ("fluency", flu_res), ("appropiate", appropiate_res)]),
       ("self_critique", DV.text adjustment_res),
       ("accuracy", DV.items acc_finalres),
       ("checkpoints", DV.items ckpt_finalres),
       ("fluency", DV.items flu_finalres),
       ("appropiate", DV.items appropiate_finalres)]
    Except.ok (scores, scores.1 + scores.2.1 + scores.2.2, detailed,
      [Stage.gate, Stage.accJudge, Stage.ckptJudge, Stage.fluJudge,
       Stage.appJudge, Stage.critique, Stage.accFinalJ, Stage.appFinalJ,
       Stage.ckptFinalJ, Stage.fluFinalJ])

/-- `metrics` of `eval/eval_res.py`: the gate call, the short-circuit
on `是`, and otherwise the full pipeline.  Also returns the list of
stages invoked. -/
def metrics (o : Oracle) :
    Except Unit ((Int × Int × Int) × Int × List (String × DV) × List Stage) :=
  match eval_result_by_llm o.instructRes with
  | Except.error e => Except.error e
  | Except.ok instruct_res =>
    match gateProblem instruct_res.data with
    | some problem =>
      if problem = '是' then
        Except.ok ((0, 0, 0), 0,
          [("instruction_following", DV.text instruct_res)], [Stage.gate])
      else metricsFull o instruct_res
    | none => metricsFull o instruct_res

/-! ### The task runner (`run_tasks.py`)

A `DISCOX` task carries an integer `prompt_id` and text fields.  A
checkpoint line / `RunRecord` is embedded by the two fields the runner
logic reads: its `prompt_id` key (absent for an error record) and its
`score` key (absent for an error record).  `run_all_sync` is embedded
as a pure function of the pending tasks, the most recent checkpoint
content (`none` when no matching file exists), and a per-task outcome
oracle (`some score` when `run_task` succeeds, `none` when the worker
wrapper catches an exception and writes an error record).  Line 78,
`tasks[0].__class__.__name__`, raises `IndexError` on an empty list and
is embedded as `Except.error`. -/

/-- The `DISCOX` task record of `dataset/data.py`. -/
structure DISCOX where
  prompt_id : Int
  prompt : String
  reference_list : String
  ori_text : String
  primary_domain : String
  secondary_domain : String
  deriving DecidableEq

/-- One checkpoint line, restricted to the keys the runner reads:
`prompt_id` (present on a task record, absent on an error record) and
`score`. -/
structure RunRecord where
  promptId : Option Int
  score : Option Int
  deriving DecidableEq

/-- The record `wrapped_run` produces for a task: `run_task` copies the
task fields (so `prompt_id` is the task's) and adds the score; a caught
exception yields an `{error, traceback}` record with neither key. -/
def wrapped_run (outcome : DISCOX → Option Int) (t : DISCOX) : RunRecord :=
  match outcome t with
  | some s => { promptId := some t.prompt_id, score := some s }
  | none => { promptId := none, score := none }

/-- The output of one `run_all_sync` invocation: which tasks were
submitted to the pool, the seeded in-memory results, whether fresh
timestamped output files were opened, and the final result file's
`detailed_results` and `average_accuracy`. -/
structure RunOutput where
  submitted : List DISCOX
  seeded : List RunRecord
  freshFiles : Bool
  detailedResults : List RunRecord
  averageAccuracy : Rat
  deriving DecidableEq

/-- `run_all_sync` of `run_tasks.py`.  `tasks[0].__class__.__name__`
raises on an empty list.  With a previous checkpoint, the ids of lines
holding a `prompt_id` are collected; when fewer than the pending tasks,
the pending list is filtered and the results are seeded with the read
lines (continuing the old files); otherwise a fresh run starts.  Each
submitted task appends its record; `average_accuracy` is
`sum(scores)/(len(scores)*100)` over records with a `score` key, `0.0`
when none. -/
def run_all_sync (tasks : List DISCOX) (lastRun : Option (List RunRecord))
    (outcome : DISCOX → Option Int) : Except Unit RunOutput :=
  match tasks with
  | [] => Except.error ()
  | _ :: _ =>
    let plan : List DISCOX × List RunRecord × Bool :=
      match lastRun with
      | some lines =>
        let already_run_data := lines.filterMap (fun r => r.promptId)
        if already_run_data.length < tasks.length then
          (tasks.filter (fun t => !(already_run_data.contains t.prompt_id)),
           lines, false)
        else (tasks, ([] : List RunRecord), true)
      | none => (tasks, ([] : List RunRecord), true)
    let results := plan.2.1 ++ plan.1.map (wrapped_run outcome)
    let valid := results.filterMap (fun r => r.score)
    let acc : Rat :=
      if valid.isEmpty then 0 else (valid.sum : Rat) / (valid.length * 100)
    Except.ok { submitted := plan.1, seeded := plan.2.1,
                freshFiles := plan.2.2, detailedResults := results,
                averageAccuracy := acc }

/-! ## Shared lemmas about the score calculator -/

/-- The score loops `s += delta(item)` as a starting value plus the sum
of deltas. -/
theorem foldl_add_delta (f : Item → Int) (l : List Item) (a : Int) :
    l.foldl (fun s it => s + f it) a = a + (l.map f).sum := by
  induction l generalizing a with
  | nil => simp
  | cons x xs ih => simp only [List.foldl_cons, List.map_cons, List.sum_cons, ih]; ring

/-- A successful `List.lookup` witnesses membership of the pair. -/
theorem mem_of_lookup_eq_some {v : String} {p : Int}
    {m : List (String × Int)} (hl : List.lookup v m = some p) :
    (v, p) ∈ m := by
  induction m with
  | nil => simp [List.lookup] at hl
  | cons kb es ih =>
    obtain ⟨k, b⟩ := kb
    simp only [List.lookup] at hl
    rcases h' : v == k with _ | _
    · simp only [h'] at hl
      exact List.mem_cons_of_mem _ (ih hl)
    · simp only [h'] at hl
      have hv : v = k := by simpa using h'
      simp only [Option.some.injEq] at hl
      simp [hv, hl]

theorem accuracyDelta_nonpos (it : Item) : accuracyDelta it ≤ 0 := by
  unfold accuracyDelta
  cases itemGet it "问题严重程度" with
  | none => simp
  | some v =>
    cases hl : List.lookup v ACCURACY_MAPPING with
    | none => simp [hl]
    | some p =>
      have hv : ∀ pr ∈ ACCURACY_MAPPING, pr.2 ≤ 0 := by decide
      simp only [hl]
      simpa using hv _ (mem_of_lookup_eq_some hl)

theorem correctnessDelta_nonpos (it : Item) : correctnessDelta it ≤ 0 := by
  unfold correctnessDelta
  cases itemGet it "判断结果" with
  | none => simp
  | some v =>
    cases hl : List.lookup v CORRECTNESS_MAPPING with
    | none => simp [hl]
    | some p =>
      have hv : ∀ pr ∈ CORRECTNESS_MAPPING, pr.2 ≤ 0 := by decide
      simp only [hl]
      simpa using hv _ (mem_of_lookup_eq_some hl)

theorem fluencyDelta_nonpos (it : Item) : fluencyDelta it ≤ 0 := by
  unfold fluencyDelta
  cases itemGet it "问题严重程度" with
  | none => simp
  | some v =>
    cases hl : List.lookup v FLUENCY_MAPPING with
    | none => simp [hl]
    | some p =>
      have hv : ∀ pr ∈ FLUENCY_MAPPING, pr.2 ≤ 0 := by decide
      simp only [hl]
      simpa using hv _ (mem_of_lookup_eq_some hl)

theorem appropiateDelta_nonpos (it : Item) : appropiateDelta it ≤ 0 := by
  unfold appropiateDelta
  cases itemGet it "问题严重程度" with
  | none => simp
  | some v =>
    cases hl : List.lookup v APPROPIATE_MAPPING with
    | none => simp [hl]
    | some p =>
      have hv : ∀ pr ∈ APPROPIATE_MAPPING, pr.2 ≤ 0 := by decide
      simp only [hl]
      simpa using hv _ (mem_of_lookup_eq_some hl)

/-- Sum of nonpositive deltas is nonpositive. -/
theorem sum_map_nonpos (f : Item → Int) (hf : ∀ it, f it ≤ 0) (l : List Item) :
    (l.map f).sum ≤ 0 := by
  induction l with
  | nil => simp
  | cons x xs ih => simpa using add_nonpos (hf x) ih

/-- Closed form of the first (accuracy) component of
`calculate_score`. -/
theorem calculate_score_fst (acc ckpt flu appropiate : List Item) :
    (calculate_score acc ckpt flu appropiate).1 =
      max (60 + ((acc.map accuracyDelta).sum +
                 (ckpt.map correctnessDelta).sum)) 0 := by
  unfold calculate_score
  simp only [foldl_add_delta]
  ring_nf

/-- Closed form of the fluency component of `calculate_score`. -/
theorem calculate_score_flu (acc ckpt flu appropiate : List Item) :
    (calculate_score acc ckpt flu appropiate).2.1 =
      max (20 + (flu.map fluencyDelta).sum) 0 := by
  unfold calculate_score
  simp only [foldl_add_delta]

/-- Closed form of the appropriateness component of
`calculate_score`. -/
theorem calculate_score_app (acc ckpt flu appropiate : List Item) :
    (calculate_score acc ckpt flu appropiate).2.2 =
      max (20 + (appropiate.map appropiateDelta).sum) 0 := by
  unfold calculate_score
  simp only [foldl_add_delta]

/-! ## Claim theorems about `calculate_score` -/

/-- Single-issue fixture: an accuracy/fluency/appropriateness issue
record with severity value `v`. -/
def sevItem (v : String) : Item := [("问题严重程度", v)]

/-- Single-issue fixture: a checkpoint record with result value `v`. -/
def resItem (v : String) : Item := [("判断结果", v)]

/-- C1: the accuracy component of `calculate_score` equals 60 plus the
per-issue severity penalties plus the per-checkpoint penalties, the sum
clamped to be at least 0.  The severity table gives 0 for no-issue, −5
for minor (`普通`) and major, −10 for severe, −50 for extremely-severe,
and −5 for any unrecognized or missing severity; a checkpoint issue
gives −5 when marked incorrect and 0 when correct, unrecognized or
missing.  A single-issue list yields exactly `max (60 + penalty) 0`;
one extremely-severe issue gives 10 and three give 0. -/
theorem C1_accuracy_component :
    (∀ acc ckpt flu appropiate : List Item,
        (calculate_score acc ckpt flu appropiate).1 =
          max (60 + ((acc.map accuracyDelta).sum +
                     (ckpt.map correctnessDelta).sum)) 0)
    ∧ (accuracyDelta (sevItem "整体无问题") = 0 ∧
       accuracyDelta (sevItem "普通") = -5 ∧
       accuracyDelta (sevItem "Major") = -5 ∧
       accuracyDelta (sevItem "严重") = -10 ∧
       accuracyDelta (sevItem "Critical") = -10 ∧
       accuracyDelta (sevItem "非常严重") = -50 ∧
       accuracyDelta (sevItem "Extremely Critical") = -50)
    ∧ (∀ v : String, List.lookup v ACCURACY_MAPPING = none →
        accuracyDelta (sevItem v) = -5)
    ∧ (∀ it : Item, itemGet it "问题严重程度" = none → accuracyDelta it = -5)
    ∧ (correctnessDelta (resItem "错误") = -5 ∧
       correctnessDelta (resItem "正确") = 0 ∧
       (∀ v : String, List.lookup v CORRECTNESS_MAPPING = none →
         correctnessDelta (resItem v) = 0) ∧
       (∀ it : Item, itemGet it "判断结果" = none → correctnessDelta it = 0))
    ∧ (∀ it : Item,
        (calculate_score [it] [] [] []).1 = max (60 + accuracyDelta it) 0)
    ∧ (calculate_score [sevItem "非常严重"] [] [] []).1 = 10
    ∧ (calculate_score [sevItem "非常严重", sevItem "非常严重",
        sevItem "非常严重"] [] [] []).1 = 0 := by
  refine ⟨fun acc ckpt flu appropiate => calculate_score_fst acc ckpt flu appropiate,
    by decide, ?_, ?_, ⟨by decide, by decide, ?_, ?_⟩, ?_, by decide, by decide⟩
  · intro v hv
    unfold accuracyDelta
    have hg : itemGet (sevItem v) "问题严重程度" = some v := by
      simp [itemGet, sevItem, List.lookup]
    rw [hg]
    simp [hv]
  · intro it h
    unfold accuracyDelta
    rw [h]
  · intro v hv
    unfold correctnessDelta
    have hg : itemGet (resItem v) "判断结果" = some v := by
      simp [itemGet, resItem, List.lookup]
    rw [hg]
    simp [hv]
  · intro it h
    unfold correctnessDelta
    rw [h]
  · intro it
    rw [calculate_score_fst]
    simp

/-- Witness for C1 at concrete inputs: the closed form at a one-issue,
one-checkpoint input, and the unrecognized-value defaults at the
severity value `unknown-tag`. -/
theorem C1_accuracy_component_witness :
    (calculate_score [sevItem "普通"] [resItem "正确"] [] []).1 =
      max (60 + ((([sevItem "普通"]).map accuracyDelta).sum +
                 (([resItem "正确"]).map correctnessDelta).sum)) 0
    ∧ accuracyDelta (sevItem "unknown-tag") = -5
    ∧ correctnessDelta (resItem "unknown-tag") = 0 :=
  ⟨C1_accuracy_component.1 [sevItem "普通"] [resItem "正确"] [] [],
   C1_accuracy_component.2.2.1 "unknown-tag" (by decide),
   C1_accuracy_component.2.2.2.2.1.2.2.1 "unknown-tag" (by decide)⟩

/-- C7: `calculate_score [] [] [] []` returns `(60, 20, 20)`, whose
total is 100, and 100 is the maximum possible total over all inputs. -/
theorem C7_empty_lists_max_score :
    calculate_score [] [] [] [] = (60, 20, 20)
    ∧ (60 : Int) + 20 + 20 = 100
    ∧ ∀ acc ckpt flu appropiate : List Item,
        (calculate_score acc ckpt flu appropiate).1 +
          (calculate_score acc ckpt flu appropiate).2.1 +
          (calculate_score acc ckpt flu appropiate).2.2 ≤ 100 := by
  refine ⟨by decide, by norm_num, ?_⟩
  intro acc ckpt flu appropiate
  have h1 : (calculate_score acc ckpt flu appropiate).1 ≤ 60 := by
    rw [calculate_score_fst]
    have ha := sum_map_nonpos accuracyDelta accuracyDelta_nonpos acc
    have hc := sum_map_nonpos correctnessDelta correctnessDelta_nonpos ckpt
    apply max_le (by linarith) (by norm_num)
  have h2 : (calculate_score acc ckpt flu appropiate).2.1 ≤ 20 := by
    rw [calculate_score_flu]
    have hf := sum_map_nonpos fluencyDelta fluencyDelta_nonpos flu
    apply max_le (by linarith) (by norm_num)
  have h3 : (calculate_score acc ckpt flu appropiate).2.2 ≤ 20 := by
    rw [calculate_score_app]
    have hp := sum_map_nonpos appropiateDelta appropiateDelta_nonpos appropiate
    apply max_le (by linarith) (by norm_num)
  linarith

/-- C9: the fluency and appropriateness components never increase when
an issue flagged `有问题` is appended to their list, and both components
are nonnegative on every input. -/
theorem C9_flu_app_monotone_nonneg :
    (∀ (acc ckpt flu appropiate : List Item) (it : Item),
        itemGet it "问题严重程度" = some "有问题" →
        (calculate_score acc ckpt (flu ++ [it]) appropiate).2.1 ≤
          (calculate_score acc ckpt flu appropiate).2.1)
    ∧ (∀ (acc ckpt flu appropiate : List Item) (it : Item),
        itemGet it "问题严重程度" = some "有问题" →
        (calculate_score acc ckpt flu (appropiate ++ [it])).2.2 ≤
          (calculate_score acc ckpt flu appropiate).2.2)
    ∧ (∀ acc ckpt flu appropiate : List Item,
        0 ≤ (calculate_score acc ckpt flu appropiate).2.1 ∧
        0 ≤ (calculate_score acc ckpt flu appropiate).2.2) := by
  refine ⟨?_, ?_, ?_⟩
  · intro acc ckpt flu appropiate it h
    have hdelta : fluencyDelta it = -2 := by
      unfold fluencyDelta
      rw [h]
      decide
    rw [calculate_score_flu, calculate_score_flu, List.map_append,
      List.sum_append]
    simp only [List.map_cons, List.map_nil, List.sum_cons, List.sum_nil,
      hdelta]
    apply max_le_max _ (le_refl 0)
    linarith
  · intro acc ckpt flu appropiate it h
    have hdelta : appropiateDelta it = -5 := by
      unfold appropiateDelta
      rw [h]
      decide
    rw [calculate_score_app, calculate_score_app, List.map_append,
      List.sum_append]
    simp only [List.map_cons, List.map_nil, List.sum_cons, List.sum_nil,
      hdelta]
    apply max_le_max _ (le_refl 0)
    linarith
  · intro acc ckpt flu appropiate
    rw [calculate_score_flu, calculate_score_app]
    exact ⟨le_max_right _ _, le_max_right _ _⟩

/-- Witness for C9 at a concrete flagged issue. -/
theorem C9_flu_app_monotone_nonneg_witness :
    (calculate_score [] [] ([] ++ [sevItem "有问题"]) []).2.1 ≤
      (calculate_score [] [] [] []).2.1
    ∧ (calculate_score [] [] [] ([] ++ [sevItem "有问题"])).2.2 ≤
      (calculate_score [] [] [] []).2.2 :=
  ⟨C9_flu_app_monotone_nonneg.1 [] [] [] [] (sevItem "有问题") (by decide),
   C9_flu_app_monotone_nonneg.2.1 [] [] [] [] (sevItem "有问题") (by decide)⟩

/-! ## Claim theorems about `safe_json_call` and `metrics` -/

/-- One failing attempt makes `retryLoop` move to the next attempt. -/
theorem retryLoop_step_fail (a : Nat → Option String)
    (p : String → Option (List Item)) (k i : Nat)
    (h : (a i).bind p = none) :
    retryLoop a p (k + 1) i = retryLoop a p k (i + 1) := by
  cases ha : a i with
  | none => simp [retryLoop, ha]
  | some r =>
    rw [ha] at h
    simp only [Option.some_bind] at h
    simp [retryLoop, ha, h]

/-- A parsable attempt makes `retryLoop` return its parse. -/
theorem retryLoop_step_ok (a : Nat → Option String)
    (p : String → Option (List Item)) (k i : Nat) (v : List Item)
    (h : (a i).bind p = some v) :
    retryLoop a p (k + 1) i = v := by
  cases ha : a i with
  | none => rw [ha] at h; simp at h
  | some r =>
    rw [ha] at h
    simp only [Option.some_bind] at h
    simp [retryLoop, ha, h]

/-- When every attempt fails, `retryLoop` exhausts to `[]`. -/
theorem retryLoop_all_fail (a : Nat → Option String)
    (p : String → Option (List Item)) (h : ∀ j, (a j).bind p = none) :
    ∀ k i, retryLoop a p k i = [] := by
  intro k
  induction k with
  | zero => intro i; rfl
  | succ k ih =>
    intro i
    rw [retryLoop_step_fail a p k i (h i)]
    exact ih (i + 1)

/-- C4: the retry wrapper `safe_json_call` with its 3-attempt bound
returns the successful parse when the first two attempts fail (the
wrapped call raising or its output being unparsable, i.e. the attempt
yields no parse) and the third parses; and when every attempt fails it
returns the empty sequence.  The embedding is a total function, so no
exception escapes to the caller. -/
theorem C4_safe_json_call_retry :
    (∀ (attemptRes : Nat → Option String)
        (parse : String → Option (List Item)) (v : List Item),
        (attemptRes 1).bind parse = none →
        (attemptRes 2).bind parse = none →
        (attemptRes 3).bind parse = some v →
        safe_json_call attemptRes parse 3 = v)
    ∧ (∀ (attemptRes : Nat → Option String)
        (parse : String → Option (List Item)),
        (∀ i, (attemptRes i).bind parse = none) →
        safe_json_call attemptRes parse 3 = []) := by
  constructor
  · intro attemptRes parse v h1 h2 h3
    show retryLoop attemptRes parse 3 1 = v
    rw [retryLoop_step_fail attemptRes parse 2 1 h1,
      retryLoop_step_fail attemptRes parse 1 2 h2]
    exact retryLoop_step_ok attemptRes parse 0 3 v h3
  · intro attemptRes parse h
    exact retryLoop_all_fail attemptRes parse h 3 1

/-- Attempt stream that fails twice and succeeds on the third call. -/
def c4Attempts : Nat → Option String := fun i => if i = 3 then some "ok" else none

/-- Parser accepting exactly the string `ok`. -/
def c4Parse : String → Option (List Item) := fun s =>
  if s = "ok" then some [resItem "正确"] else none

/-- Witness for C4: the fail-twice-succeed-once stream returns the
third attempt's parse; the always-failing stream returns `[]`. -/
theorem C4_safe_json_call_retry_witness :
    safe_json_call c4Attempts c4Parse 3 = [resItem "正确"]
    ∧ safe_json_call (fun _ => none) c4Parse 3 = [] :=
  ⟨C4_safe_json_call_retry.1 c4Attempts c4Parse [resItem "正确"]
      (by decide) (by decide) (by decide),
   C4_safe_json_call_retry.2 (fun _ => none) c4Parse (fun i => rfl)⟩

/-- C3: whenever the gate response matches the marker `是否存在问题：`
followed (after whitespace) by the problem-exists token `是`, `metrics`
returns the zero score tuple, total 0, and a detailed judgment holding
only the gate result, and the only invoked stage is the gate — none of
the four dimension judges, the self-critique, or the final judges
run. -/
theorem C3_gate_short_circuit (o : Oracle) (raw : String)
    (h1 : o.instructRes = some raw)
    (h2 : gateProblem (extract_json_string raw).data = some '是') :
    metrics o = Except.ok ((0, 0, 0), 0,
      [("instruction_following", DV.text (extract_json_string raw))],
      [Stage.gate]) := by
  unfold metrics eval_result_by_llm
  rw [h1]
  simp only [h2]
  rfl

/-- Oracle whose gate response flags a problem; every other judge
response is left failing so any use of them would be visible. -/
def gateYesOracle : Oracle :=
  { instructRes := some "是否存在问题：是"
    accAttempts := fun _ => none
    ckptAttempts := fun _ => none
    fluAttempts := fun _ => none
    appAttempts := fun _ => none
    critiqueRes := none
    accFinalAttempts := fun _ => none
    appFinalAttempts := fun _ => none
    ckptFinalAttempts := fun _ => none
    fluFinalAttempts := fun _ => none
    parse := fun _ => none }

/-- Witness for C3 at a concrete gate response. -/
theorem C3_gate_short_circuit_witness :
    metrics gateYesOracle = Except.ok ((0, 0, 0), 0,
      [("instruction_following",
        DV.text (extract_json_string "是否存在问题：是"))],
      [Stage.gate]) :=
  C3_gate_short_circuit gateYesOracle "是否存在问题：是" rfl (by decide)

/-- Oracle whose gate invocation yields no content while every other
stage would succeed. -/
def gateFailOracle : Oracle :=
  { instructRes := none
    accAttempts := fun _ => some "[]"
    ckptAttempts := fun _ => some "[]"
    fluAttempts := fun _ => some "[]"
    appAttempts := fun _ => some "[]"
    critiqueRes := some "ok"
    accFinalAttempts := fun _ => some "[]"
    appFinalAttempts := fun _ => some "[]"
    ckptFinalAttempts := fun _ => some "[]"
    fluFinalAttempts := fun _ => some "[]"
    parse := fun _ => some [] }

/-- C5 counterexample: with no content from the gate invocation,
`metrics` raises (the `TypeError` from `re.search` on `None`) instead
of degrading to an empty judgment — the task is aborted, contradicting
the claim for the gate stage. -/
theorem C5_gate_none_aborts :
    metrics gateFailOracle = Except.error () := rfl

/-- C5 amended: a missing response at the gate stage propagates as an
exception out of `metrics` (a task failure); only a dimension-judge
stage invocation failure degrades to an empty judgment for that stage
without aborting the task. -/
theorem C5_dimension_failure_degrades :
    (∀ o : Oracle, o.instructRes = none → metrics o = Except.error ())
    ∧ (∀ (o : Oracle) (raw adj : String),
        o.instructRes = some raw →
        gateProblem (extract_json_string raw).data = none →
        o.critiqueRes = some adj →
        (∀ i, o.accAttempts i = none) →
        judgeDim o.accAttempts o.parse = [] ∧
        ∃ v, metrics o = Except.ok v) := by
  constructor
  · intro o h
    unfold metrics eval_result_by_llm
    rw [h]
  · intro o raw adj h1 hg hc hacc
    have hempty : judgeDim o.accAttempts o.parse = [] := by
      show retryLoop (fun i => (o.accAttempts i).map extract_json_string)
        o.parse 3 1 = []
      apply retryLoop_all_fail
      intro j
      rw [hacc j]
      rfl
    refine ⟨hempty, ?_⟩
    unfold metrics eval_result_by_llm
    rw [h1]
    simp only [hg]
    unfold metricsFull self_critique_judge eval_result_by_llm
    rw [hc]
    exact ⟨_, rfl⟩

/-- Oracle with a clean gate, a failing accuracy dimension judge, and
otherwise successful stages. -/
def dimFailOracle : Oracle :=
  { instructRes := some "ok"
    accAttempts := fun _ => none
    ckptAttempts := fun _ => some "[]"
    fluAttempts := fun _ => some "[]"
    appAttempts := fun _ => some "[]"
    critiqueRes := some "adj"
    accFinalAttempts := fun _ => some "[]"
    appFinalAttempts := fun _ => some "[]"
    ckptFinalAttempts := fun _ => some "[]"
    fluFinalAttempts := fun _ => some "[]"
    parse := fun _ => some [] }

/-- Witness for the amended C5: the gate-stage failure aborts, and the
accuracy-dimension failure degrades to `[]` with the task completing. -/
theorem C5_dimension_failure_degrades_witness :
    metrics gateFailOracle = Except.error ()
    ∧ (judgeDim dimFailOracle.accAttempts dimFailOracle.parse = []
       ∧ ∃ v, metrics dimFailOracle = Except.ok v) :=
  ⟨C5_dimension_failure_degrades.1 gateFailOracle rfl,
   C5_dimension_failure_degrades.2 dimFailOracle "ok" "adj" rfl (by decide)
     rfl (fun i => rfl)⟩

/-- C10: `run_all_sync` on an empty task list fails (the
`tasks[0].__class__.__name__` IndexError) for every checkpoint state
and worker behavior, instead of completing with an empty result set. -/
theorem C10_empty_task_list_errors :
    ∀ (lastRun : Option (List RunRecord)) (outcome : DISCOX → Option Int),
      run_all_sync [] lastRun outcome = Except.error () :=
  fun _ _ => rfl

/-! ## Claim theorems about the task runner -/

/-- When the already-run identifiers are at least as many as the
pending tasks, `run_all_sync` takes the fresh-run branch and behaves
exactly as with no previous checkpoint. -/
theorem run_all_sync_fresh_branch (t : DISCOX) (ts : List DISCOX)
    (lines : List RunRecord) (outcome : DISCOX → Option Int)
    (hge : ¬((lines.filterMap fun r => r.promptId).length <
      (t :: ts).length)) :
    run_all_sync (t :: ts) (some lines) outcome =
      run_all_sync (t :: ts) none outcome := by
  simp only [run_all_sync, if_neg hge]

/-- C6: when the checkpoint's recovered identifiers cover every pending
task, the runner starts a fresh run — it submits all tasks, seeds no
results, opens new timestamped output files, and behaves exactly as if
no previous run existed. -/
theorem C6_full_checkpoint_fresh_run
    (tasks : List DISCOX) (lines : List RunRecord)
    (outcome : DISCOX → Option Int) (out : RunOutput)
    (hnd : (tasks.map fun t => t.prompt_id).Nodup)
    (hcov : ∀ t ∈ tasks, t.prompt_id ∈ lines.filterMap fun r => r.promptId)
    (hrun : run_all_sync tasks (some lines) outcome = Except.ok out) :
    out.submitted = tasks ∧ out.seeded = [] ∧ out.freshFiles = true ∧
      run_all_sync tasks (some lines) outcome =
        run_all_sync tasks none outcome := by
  have hlen : tasks.length ≤ (lines.filterMap fun r => r.promptId).length := by
    have hsub : (tasks.map fun t => t.prompt_id) ⊆
        lines.filterMap fun r => r.promptId := by
      intro x hx
      obtain ⟨t, ht, rfl⟩ := List.mem_map.mp hx
      exact hcov t ht
    have hle := (hnd.subperm hsub).length_le
    simpa using hle
  cases tasks with
  | nil => simp [run_all_sync] at hrun
  | cons t ts =>
    have hge : ¬((lines.filterMap fun r => r.promptId).length <
        (t :: ts).length) := Nat.not_lt.mpr hlen
    have hfresh := run_all_sync_fresh_branch t ts lines outcome hge
    rw [hfresh] at hrun
    simp only [run_all_sync] at hrun
    injection hrun with h
    subst h
    exact ⟨rfl, rfl, rfl, hfresh⟩

/-- Witness for C6: a two-task set whose checkpoint already contains
both identifiers starts a fresh run submitting both tasks. -/
def c6Task (n : Int) : DISCOX :=
  { prompt_id := n, prompt := "p", reference_list := "r", ori_text := "o",
    primary_domain := "d1", secondary_domain := "d2" }

/-- Checkpoint record fixture with a given id and score. -/
def c6Rec (n s : Int) : RunRecord := { promptId := some n, score := some s }

/-- Output of the C6 witness run, computed by evaluation. -/
def c6Out : RunOutput where
  submitted := [c6Task 1, c6Task 2]
  seeded := []
  freshFiles := true
  detailedResults := [c6Task 1, c6Task 2].map (wrapped_run fun _ => some 100)
  averageAccuracy := 1

/-- Witness for C6: a two-task set whose checkpoint already contains
both identifiers starts a fresh run submitting both tasks with no
seeded results. -/
theorem C6_full_checkpoint_fresh_run_witness :
    c6Out.submitted = [c6Task 1, c6Task 2] ∧ c6Out.seeded = [] ∧
      c6Out.freshFiles = true :=
  have hr : run_all_sync [c6Task 1, c6Task 2]
      (some [c6Rec 1 80, c6Rec 2 90]) (fun _ => some 100) =
      Except.ok c6Out := by
    norm_num [run_all_sync, c6Rec, c6Task, wrapped_run, c6Out,
      List.filterMap_cons, RunOutput.mk.injEq]
  have hc := C6_full_checkpoint_fresh_run [c6Task 1, c6Task 2]
    [c6Rec 1 80, c6Rec 2 90] (fun _ => some 100) c6Out
    (by decide) (by decide) hr
  ⟨hc.1, hc.2.1, hc.2.2.1⟩

/-- `filterMap` keeps the length when every element maps to `some`. -/
theorem length_filterMap_of_forall_isSome {α β : Type} (f : α → Option β) :
    ∀ l : List α, (∀ r ∈ l, (f r).isSome) → (l.filterMap f).length = l.length := by
  intro l
  induction l with
  | nil => simp
  | cons a as ih =>
    intro h
    obtain ⟨b, hb⟩ := Option.isSome_iff_exists.mp (h a (List.mem_cons_self a as))
    rw [List.filterMap_cons, hb]
    simp [ih (fun r hr => h r (List.mem_cons_of_mem a hr))]

/-- With all workers succeeding, the new records' identifiers are
exactly the submitted tasks' identifiers. -/
theorem filterMap_promptId_map_wrapped (outcome : DISCOX → Option Int)
    (hok : ∀ t, (outcome t).isSome) :
    ∀ l : List DISCOX,
      ((l.map (wrapped_run outcome)).filterMap fun r => r.promptId) =
        l.map fun t => t.prompt_id := by
  intro l
  induction l with
  | nil => rfl
  | cons a as ih =>
    obtain ⟨s, hs⟩ := Option.isSome_iff_exists.mp (hok a)
    have hw : wrapped_run outcome a =
        { promptId := some a.prompt_id, score := some s } := by
      unfold wrapped_run
      rw [hs]
    simp only [List.map_cons, List.filterMap_cons, hw]
    simp [ih]

/-- Filtering a task list on an identifier predicate commutes with
taking identifiers. -/
theorem map_promptId_filter (A : List Int) (tasks : List DISCOX) :
    ((tasks.filter fun t => !(A.contains t.prompt_id)).map
        fun t => t.prompt_id) =
      (tasks.map fun t => t.prompt_id).filter fun x => !(A.contains x) := by
  induction tasks with
  | nil => rfl
  | cons t ts ih =>
    simp only [List.filter_cons, List.map_cons]
    by_cases h : t.prompt_id ∈ A
    · have hc : (!A.contains t.prompt_id) = false := by simp [h]
      rw [hc]
      simp only [Bool.false_eq_true, if_false]
      exact ih
    · have hc : (!A.contains t.prompt_id) = true := by simp [h]
      rw [hc]
      simp only [if_true]
      rw [List.map_cons, ih]

/-- The identifiers of `L` that lie in `A` are a permutation of `A`
when both are duplicate-free and `A`'s members all lie in `L`. -/
theorem perm_filter_contains (L A : List Int) (hL : L.Nodup) (hA : A.Nodup)
    (hsub : ∀ x ∈ A, x ∈ L) :
    List.Perm (L.filter fun x => A.contains x) A := by
  apply List.perm_of_nodup_nodup_toFinset_eq (hL.filter _) hA
  ext x
  simp only [List.mem_toFinset, List.mem_filter]
  constructor
  · rintro ⟨-, hc⟩
    exact List.elem_iff.mp hc
  · intro hx
    exact ⟨hsub x hx, List.elem_iff.mpr hx⟩

/-- Seeding with the already-run identifiers and running the remaining
tasks reproduces all identifiers up to permutation. -/
theorem append_filter_not_contains_perm (L A : List Int) (hL : L.Nodup)
    (hA : A.Nodup) (hsub : ∀ x ∈ A, x ∈ L) :
    List.Perm (A ++ (L.filter fun x => !(A.contains x))) L := by
  have h1 := perm_filter_contains L A hL hA hsub
  have h2 := List.filter_append_perm (fun x => A.contains x) L
  exact (h1.symm.append_right _).trans h2

/-- C2: with a checkpoint holding records for exactly N of the M
distinct pending task identifiers (N < M) and all workers succeeding,
the resumed run seeds the results with the N read records, submits
exactly the M−N remaining tasks, and the final `detailed_results`
contains all M records — its identifier list is a permutation of the
task identifiers, so no duplicates and no loss. -/
theorem C2_resume_no_dup_no_loss
    (tasks : List DISCOX) (lines : List RunRecord)
    (outcome : DISCOX → Option Int) (out : RunOutput)
    (hnd : (tasks.map fun t => t.prompt_id).Nodup)
    (hids : ∀ r ∈ lines, ∃ t ∈ tasks, r.promptId = some t.prompt_id)
    (hlnd : (lines.filterMap fun r => r.promptId).Nodup)
    (hN : lines.length < tasks.length)
    (hok : ∀ t, (outcome t).isSome)
    (hrun : run_all_sync tasks (some lines) outcome = Except.ok out) :
    out.seeded = lines ∧
    out.submitted = tasks.filter
      (fun t => !((lines.filterMap fun r => r.promptId).contains t.prompt_id)) ∧
    out.submitted.length = tasks.length - lines.length ∧
    out.detailedResults.length = tasks.length ∧
    List.Perm (out.detailedResults.filterMap fun r => r.promptId)
      (tasks.map fun t => t.prompt_id) := by
  have hAlen : (lines.filterMap fun r => r.promptId).length = lines.length := by
    apply length_filterMap_of_forall_isSome
    intro r hr
    obtain ⟨t, _, he⟩ := hids r hr
    rw [he]
    rfl
  cases tasks with
  | nil => exact absurd hN (by simp)
  | cons t0 ts =>
    have hcond : (lines.filterMap fun r => r.promptId).length <
        (t0 :: ts).length := by
      rw [hAlen]
      exact hN
    simp only [run_all_sync, if_pos hcond] at hrun
    injection hrun with h
    subst h
    have hsub : ∀ x ∈ (lines.filterMap fun r => r.promptId),
        x ∈ (t0 :: ts).map fun t => t.prompt_id := by
      intro x hx
      obtain ⟨r, hr, he⟩ := List.mem_filterMap.mp hx
      obtain ⟨t, ht, he2⟩ := hids r hr
      rw [he2] at he
      obtain rfl : t.prompt_id = x := by injection he
      exact List.mem_map.mpr ⟨t, ht, rfl⟩
    have hperm2 := append_filter_not_contains_perm
      ((t0 :: ts).map fun t => t.prompt_id)
      (lines.filterMap fun r => r.promptId) hnd hlnd hsub
    have hmapf := map_promptId_filter (lines.filterMap fun r => r.promptId)
      (t0 :: ts)
    have hwrap := filterMap_promptId_map_wrapped outcome hok
      ((t0 :: ts).filter fun t =>
        !((lines.filterMap fun r => r.promptId).contains t.prompt_id))
    have hsublen : ((t0 :: ts).filter fun t =>
        !((lines.filterMap fun r => r.promptId).contains t.prompt_id)).length =
        (t0 :: ts).length - lines.length := by
      have hlp := hperm2.length_eq
      rw [List.length_append] at hlp
      have heq : ((t0 :: ts).filter fun t =>
          !((lines.filterMap fun r => r.promptId).contains t.prompt_id)).length =
          (((t0 :: ts).map fun t => t.prompt_id).filter fun x =>
            !((lines.filterMap fun r => r.promptId).contains x)).length := by
        rw [← hmapf, List.length_map]
      have hM : ((t0 :: ts).map fun t => t.prompt_id).length =
          (t0 :: ts).length := List.length_map _ _
      omega
    refine ⟨rfl, rfl, hsublen, ?_, ?_⟩
    · show (lines ++ ((t0 :: ts).filter fun t =>
        !((lines.filterMap fun r => r.promptId).contains t.prompt_id)).map
          (wrapped_run outcome)).length = (t0 :: ts).length
      rw [List.length_append, List.length_map, hsublen]
      have : lines.length < (t0 :: ts).length := hN
      omega
    · show List.Perm ((lines ++ ((t0 :: ts).filter fun t =>
        !((lines.filterMap fun r => r.promptId).contains t.prompt_id)).map
          (wrapped_run outcome)).filterMap fun r => r.promptId)
        ((t0 :: ts).map fun t => t.prompt_id)
      rw [List.filterMap_append, hwrap, hmapf]
      exact hperm2

/-- Output of the C2 witness run (two tasks, one already
checkpointed), computed by evaluation. -/
def c2Out : RunOutput where
  submitted := [c6Task 2]
  seeded := [c6Rec 1 80]
  freshFiles := false
  detailedResults := [c6Rec 1 80, wrapped_run (fun _ => some 100) (c6Task 2)]
  averageAccuracy := 9 / 10

/-- Witness for C2: resuming two tasks over a checkpoint holding the
first identifier submits only the second task and ends with both
identifiers exactly once. -/
theorem C2_resume_no_dup_no_loss_witness :
    c2Out.seeded = [c6Rec 1 80] ∧
    c2Out.submitted = [c6Task 1, c6Task 2].filter
      (fun t => !((([c6Rec 1 80] : List RunRecord).filterMap
        fun r => r.promptId).contains t.prompt_id)) ∧
    c2Out.submitted.length =
      [c6Task 1, c6Task 2].length - [c6Rec 1 80].length ∧
    c2Out.detailedResults.length = [c6Task 1, c6Task 2].length ∧
    List.Perm (c2Out.detailedResults.filterMap fun r => r.promptId)
      ([c6Task 1, c6Task 2].map fun t => t.prompt_id) :=
  have hr2 : run_all_sync [c6Task 1, c6Task 2] (some [c6Rec 1 80])
      (fun _ => some 100) = Except.ok c2Out := by
    norm_num [run_all_sync, c6Rec, c6Task, wrapped_run, c2Out,
      List.filterMap_cons, List.filter_cons, RunOutput.mk.injEq]
  C2_resume_no_dup_no_loss [c6Task 1, c6Task 2] [c6Rec 1 80]
    (fun _ => some 100) c2Out (by decide) (by decide) (by decide)
    (by decide) (fun t => rfl) hr2

/-! ## Claim theorems about `extract_json_string` -/

/-- A text opening with a non-backtick does not start a fence. -/
theorem startsTicks_cons_false {c : Char} (xs : List Char)
    (hc : c ≠ btick) : startsTicks (c :: xs) = false := by
  simp only [startsTicks, ticks, List.take]
  rw [beq_eq_false_iff_ne]
  intro h
  injection h with h1 h2
  exact hc h1

/-- A backtick triple starts a fence. -/
theorem startsTicks_ticks_append (l : List Char) :
    startsTicks (btick :: btick :: btick :: l) = true := by
  simp [startsTicks, ticks, List.take]

/-- `splitAtFence` at a leading backtick triple. -/
theorem splitAtFence_ticks_left (l : List Char) :
    splitAtFence (btick :: btick :: btick :: l) = some ([], l) := by
  simp [splitAtFence, startsTicks_ticks_append]

/-- `splitAtFence` past a harmless head character, failing case. -/
theorem splitAtFence_cons_none {c : Char} {rest : List Char}
    (hc : c ≠ btick) (hrest : splitAtFence rest = none) :
    splitAtFence (c :: rest) = none := by
  simp [splitAtFence, startsTicks_cons_false rest hc, hrest]

/-- `splitAtFence` past a harmless head character, succeeding case. -/
theorem splitAtFence_cons_some {c : Char} {rest b a : List Char}
    (hc : c ≠ btick) (hrest : splitAtFence rest = some (b, a)) :
    splitAtFence (c :: rest) = some (c :: b, a) := by
  simp [splitAtFence, startsTicks_cons_false rest hc, hrest]

/-- `splitAtFence` past a backtick-free prefix, failing case. -/
theorem splitAtFence_append_none {pre m : List Char}
    (hp : ∀ c ∈ pre, c ≠ btick) (hm : splitAtFence m = none) :
    splitAtFence (pre ++ m) = none := by
  induction pre with
  | nil => simpa using hm
  | cons c p ih =>
    rw [List.cons_append]
    exact splitAtFence_cons_none (hp c (List.mem_cons_self c p))
      (ih fun d hd => hp d (List.mem_cons_of_mem c hd))

/-- `splitAtFence` past a backtick-free prefix, succeeding case. -/
theorem splitAtFence_append_some {pre m b a : List Char}
    (hp : ∀ c ∈ pre, c ≠ btick) (hm : splitAtFence m = some (b, a)) :
    splitAtFence (pre ++ m) = some (pre ++ b, a) := by
  induction pre with
  | nil => simpa using hm
  | cons c p ih =>
    rw [List.cons_append, List.cons_append]
    exact splitAtFence_cons_some (hp c (List.mem_cons_self c p))
      (ih fun d hd => hp d (List.mem_cons_of_mem c hd))

/-- Without a backtick triple there is no fence split. -/
theorem splitAtFence_eq_none_of_no_ticks {l : List Char}
    (h : hasTicks l = false) : splitAtFence l = none := by
  induction l with
  | nil => rfl
  | cons c rest ih =>
    rw [hasTicks] at h
    have h1 : startsTicks (c :: rest) = false := by
      cases hs : startsTicks (c :: rest) with
      | false => rfl
      | true => rw [hs] at h; simp at h
    have h2 : hasTicks rest = false := by
      cases hs : hasTicks rest with
      | false => rfl
      | true => rw [hs] at h; simp at h
    simp [splitAtFence, h1, ih h2]

/-- The optional `json` tag is consumed when present. -/
theorem skipJson_json (l : List Char) :
    skipJson ('j' :: 's' :: 'o' :: 'n' :: l) = l := rfl

/-- The optional `json` tag is skipped when absent. -/
theorem skipJson_of_not_json {l : List Char}
    (h : startsJsonWord l = false) : skipJson l = l := by
  simp [skipJson, h]

/-- A backtick-free inner text not opening with `json`, followed by the
closing fence, still does not open with `json`. -/
theorem startsJsonWord_inner_ticks (inner post : List Char)
    (hj : startsJsonWord inner = false) :
    startsJsonWord (inner ++ ticks ++ post) = false := by
  rcases inner with _ | ⟨a, _ | ⟨b, _ | ⟨c, _ | ⟨d, tl⟩⟩⟩⟩
  · simp only [List.nil_append, ticks, List.cons_append,
      startsJsonWord, List.take]
    rw [beq_eq_false_iff_ne]
    intro h
    injection h with h1 h2
    exact absurd h1 (by decide)
  · simp only [List.cons_append, List.nil_append, ticks, startsJsonWord,
      List.take]
    rw [beq_eq_false_iff_ne]
    intro h
    injection h with h1 h2
    injection h2 with h2 h3
    exact absurd h2 (by decide)
  · simp only [List.cons_append, List.nil_append, ticks, startsJsonWord,
      List.take]
    rw [beq_eq_false_iff_ne]
    intro h
    injection h with h1 h2
    injection h2 with h2 h3
    injection h3 with h3 h4
    exact absurd h3 (by decide)
  · simp only [List.cons_append, List.nil_append, ticks, startsJsonWord,
      List.take]
    rw [beq_eq_false_iff_ne]
    intro h
    injection h with h1 h2
    injection h2 with h2 h3
    injection h3 with h3 h4
    injection h4 with h4 h5
    exact absurd h4 (by decide)
  · simp only [startsJsonWord, List.take, List.cons_append] at hj ⊢
    exact hj

/-- C8: the JSON-fragment extractor returns the trimmed inner content
of the first fenced block — both the ```json-tagged and the bare
``` form — so parsing its result is parsing the fence's inner content;
with no fence anywhere it returns the whole text unchanged. -/
theorem C8_extract_json_fence :
    (∀ text : List Char, hasTicks text = false →
        extractJsonChars text = text)
    ∧ (∀ pre inner post : List Char,
        (∀ c ∈ pre, c ≠ btick) → (∀ c ∈ inner, c ≠ btick) →
        extractJsonChars (pre ++ ticks ++
          ('j' :: 's' :: 'o' :: 'n' :: (inner ++ ticks ++ post))) =
          pyStrip inner)
    ∧ (∀ pre inner post : List Char,
        (∀ c ∈ pre, c ≠ btick) → (∀ c ∈ inner, c ≠ btick) →
        startsJsonWord inner = false →
        extractJsonChars (pre ++ ticks ++ (inner ++ ticks ++ post)) =
          pyStrip inner) := by
  refine ⟨?_, ?_, ?_⟩
  · intro text h
    unfold extractJsonChars
    rw [splitAtFence_eq_none_of_no_ticks h]
  · intro pre inner post hp hin
    have hopen : splitAtFence (pre ++ ticks ++
        ('j' :: 's' :: 'o' :: 'n' :: (inner ++ ticks ++ post))) =
        some (pre, 'j' :: 's' :: 'o' :: 'n' :: (inner ++ ticks ++ post)) := by
      have h1 : splitAtFence (ticks ++
          ('j' :: 's' :: 'o' :: 'n' :: (inner ++ ticks ++ post))) =
          some ([], 'j' :: 's' :: 'o' :: 'n' :: (inner ++ ticks ++ post)) :=
        splitAtFence_ticks_left _
      have h2 := splitAtFence_append_some hp h1
      simpa using h2
    have hclose : splitAtFence (inner ++ ticks ++ post) =
        some (inner, post) := by
      have h1 : splitAtFence (ticks ++ post) = some ([], post) :=
        splitAtFence_ticks_left _
      have h2 := splitAtFence_append_some hin h1
      simpa [List.append_assoc] using h2
    unfold extractJsonChars
    rw [hopen]
    simp only [skipJson_json, hclose]
  · intro pre inner post hp hin hj
    have hopen : splitAtFence (pre ++ ticks ++ (inner ++ ticks ++ post)) =
        some (pre, inner ++ ticks ++ post) := by
      have h1 : splitAtFence (ticks ++ (inner ++ ticks ++ post)) =
          some ([], inner ++ ticks ++ post) := splitAtFence_ticks_left _
      have h2 := splitAtFence_append_some hp h1
      simpa using h2
    have hclose : splitAtFence (inner ++ ticks ++ post) =
        some (inner, post) := by
      have h1 : splitAtFence (ticks ++ post) = some ([], post) :=
        splitAtFence_ticks_left _
      have h2 := splitAtFence_append_some hin h1
      simpa [List.append_assoc] using h2
    unfold extractJsonChars
    rw [hopen]
    simp only [skipJson_of_not_json (startsJsonWord_inner_ticks inner post hj),
      hclose]

/-- Witness for C8 at concrete fenced and fence-free texts. -/
theorem C8_extract_json_fence_witness :
    extractJsonChars ("x: ".data ++ ticks ++
      ('j' :: 's' :: 'o' :: 'n' :: ("\n[1, 2]\n".data ++ ticks ++
        " tail".data))) = pyStrip "\n[1, 2]\n".data
    ∧ extractJsonChars "no fence".data = "no fence".data :=
  ⟨C8_extract_json_fence.2.1 "x: ".data "\n[1, 2]\n".data " tail".data
      (by decide) (by decide),
   C8_extract_json_fence.1 "no fence".data (by decide)⟩
